import Mathlib

/-!
Verification development for the ETL-project repository: a shallow embedding of
the Column Normalizer (src/repository/etl_metadata.py, src/repository/etl_benchmark.py),
the benchmark reshape, the Loader (src/helpers/helpers_export.py), the
serialization helper (src/helpers/helpers_serialize.py), and the
Alignment & Indicator Engine (src/view/streamlit_view.py,
src/helpers/helpers_streamlit.py), together with theorems settling the
specification's claims about them.

Conventions of the embedding:
- pandas cell values are the inductive `Value` (numeric, string, datetime, NaN);
- a DataFrame is an ordered list of named columns `Frame := List (String × List Value)`;
- fallible pandas operations (`pd.to_numeric` / `pd.to_datetime` with their default
  `errors='raise'`) return `Except String _`;
- machine floats are modelled by `ℚ`, with IEEE NaN modelled by `Option` where a
  claim depends on NaN propagation;
- parsing of numeric string tokens is modelled by decimal digit-string parsing:
  the claims proved below do not depend on the parsing grammar, only on the
  existence of both parseable and unparseable tokens.
-/

instance {ε α : Type} [DecidableEq ε] [DecidableEq α] : DecidableEq (Except ε α)
  | .error e, .error f => decidable_of_iff (e = f) (by simp)
  | .error _, .ok _ => isFalse (by simp)
  | .ok _, .error _ => isFalse (by simp)
  | .ok a, .ok b => decidable_of_iff (a = b) (by simp)

/-- A pandas cell value: numeric, string, datetime, or missing (NaN/NaT). -/
inductive Value where
  | num (q : ℚ)
  | str (s : String)
  | date (q : ℚ)
  | missing
deriving DecidableEq, Repr

/-- One DataFrame column: its name and its cell values. -/
abbrev Col := String × List Value

/-- A DataFrame: an ordered list of named columns. -/
abbrev Frame := List Col

/-- `df.columns`: the list of column names. -/
def Frame.columns (df : Frame) : List String := df.map Prod.fst

/-- `col in df.columns` as the source writes the guard. -/
def hasCol (df : Frame) (c : String) : Bool := df.any (fun p => p.1 == c)

/-- `df.drop(col, axis=1)`: remove every column carrying that name. -/
def dropCol (df : Frame) (c : String) : Frame := df.filter (fun p => p.1 != c)

/-- Step 1 of `MetadataETL.transform` / step 1.4 of `BenchmarkETL.transform`:
`for col in columns_to_drop: if col in df.columns: df.drop(col, axis=1, inplace=True)`. -/
def dropStep (cols : List String) (df : Frame) : Frame :=
  match cols with
  | [] => df
  | c :: cs => dropStep cs (if hasCol df c then dropCol df c else df)

/-- Accumulate a decimal digit string into a natural number. -/
def digitsToNat (l : List Char) : ℕ :=
  l.foldl (fun acc ch => 10 * acc + (ch.toNat - 48)) 0

/-- Numeric reading of a string token (models parseability of a token by
natural-number literal parsing). -/
def parseNum (s : String) : Option ℚ :=
  if !s.toList.isEmpty && s.toList.all (fun ch => ch.isDigit) then
    some ((digitsToNat s.toList : ℕ) : ℚ)
  else none

/-- `pd.to_numeric` on one cell, default `errors='raise'`: numeric and datetime
values convert, NaN stays NaN, an unparseable string raises. -/
def toNumericE : Value → Except String Value
  | .num q => .ok (.num q)
  | .date q => .ok (.num q)
  | .missing => .ok .missing
  | .str s =>
    match parseNum s with
    | some q => .ok (.num q)
    | none => .error ("Unable to parse string " ++ s)

/-- `pd.to_datetime` on one cell, default `errors='raise'`. -/
def toDatetimeE : Value → Except String Value
  | .num q => .ok (.date q)
  | .date q => .ok (.date q)
  | .missing => .ok .missing
  | .str s =>
    match parseNum s with
    | some q => .ok (.date q)
    | none => .error ("Unknown datetime string format " ++ s)

/-- `.astype(str)` on one cell (total; NaN stringifies rather than raising). -/
def astypeStr : Value → Value
  | .num q => .str (toString q)
  | .str s => .str s
  | .date q => .str (toString q)
  | .missing => .str "nan"

/-- Apply a fallible cell coercion down one column's values. -/
def colMapE (g : Value → Except String Value) : List Value → Except String (List Value)
  | [] => .ok []
  | v :: vs =>
    match g v with
    | .error e => .error e
    | .ok w =>
      match colMapE g vs with
      | .error e => .error e
      | .ok ws => .ok (w :: ws)

/-- `df[c] = g(df[c])` for a fallible coercion `g`: every column named `c`
has its values coerced, other columns are untouched. -/
def coerceColE (g : Value → Except String Value) (c : String) : Frame → Except String Frame
  | [] => .ok []
  | p :: rest =>
    match coerceColE g c rest with
    | .error e => .error e
    | .ok rest' =>
      if p.1 == c then
        match colMapE g p.2 with
        | .error e => .error e
        | .ok vs' => .ok ((p.1, vs') :: rest')
      else
        .ok (p :: rest')

/-- `for col in cols: if col in df.columns: df[col] = g(df[col])` — the shape of
the date step and the numeric step of both transforms. -/
def coerceStepE (g : Value → Except String Value) (cols : List String) (df : Frame) :
    Except String Frame :=
  match cols with
  | [] => .ok df
  | c :: cs =>
    if hasCol df c then
      match coerceColE g c df with
      | .error e => .error e
      | .ok df' => coerceStepE g cs df'
    else
      coerceStepE g cs df

/-- Step 2 of both transforms: `pd.to_datetime` over `columns_date`. -/
def dateStep (cols : List String) (df : Frame) : Except String Frame :=
  coerceStepE toDatetimeE cols df

/-- Step 3 of both transforms: `pd.to_numeric` over `columns_numeric`. -/
def numericStep (cols : List String) (df : Frame) : Except String Frame :=
  coerceStepE toNumericE cols df

/-- The `columns_new_names` rename mapping (old name → new name). -/
abbrev Rename := List (String × String)

/-- `columns_new_names.get(col, col)`. -/
def renameGet (m : Rename) (c : String) : String :=
  match m.find? (fun p => p.1 == c) with
  | some p => p.2
  | none => c

/-- `df[c] = df[c].astype(str)`: a total in-place coercion of every column named `c`. -/
def astypeCol (c : String) (df : Frame) : Frame :=
  df.map (fun p => if p.1 == c then (p.1, p.2.map astypeStr) else p)

/-- Step 4 of both transforms, exactly as the source writes it:
`for col in columns_string: new_col = columns_new_names.get(col, col);
if new_col in df.columns: df[new_col] = df[new_col].astype(str)`. -/
def stringStep (cols : List String) (m : Rename) (df : Frame) : Frame :=
  match cols with
  | [] => df
  | col :: cs =>
    let new_col := renameGet m col
    stringStep cs m (if hasCol df new_col then astypeCol new_col df else df)

/-- Step 5 of both transforms: `df.rename(columns=columns_new_names)`. -/
def renameStep (m : Rename) (df : Frame) : Frame :=
  df.map (fun p => (renameGet m p.1, p.2))

/-- The declarative column-group configuration (`MetadataColumns`/`BenchmarkColumns`
in src/model): date, numeric, string, drop groups plus the rename mapping. -/
structure ColumnsSpec where
  columns_date : List String
  columns_numeric : List String
  columns_string : List String
  columns_to_drop : List String
  columns_new_names : Rename
deriving Repr

/-- The Column Normalizer: the body of `MetadataETL.transform`
(src/repository/etl_metadata.py lines 79-104), steps 1-5 in source order.
`BenchmarkETL.transform` runs the same five steps after its reshape. -/
def transformFrame (spec : ColumnsSpec) (df : Frame) : Except String Frame :=
  let df1 := dropStep spec.columns_to_drop df
  match dateStep spec.columns_date df1 with
  | .error e => .error e
  | .ok df2 =>
    match numericStep spec.columns_numeric df2 with
    | .error e => .error e
    | .ok df3 =>
      let df4 := stringStep spec.columns_string spec.columns_new_names df3
      .ok (renameStep spec.columns_new_names df4)

example : transformFrame ⟨[], [], [], ["d"], [("x", "d")]⟩ [("x", [.num 1])] =
    .ok [("d", [.num 1])] := by decide

example : stringStep ["a"] [("a", "b")] [("b", [.num 1])] = [("b", [.str "1"])] := by decide

/-! ## Loader: `dataframes_to_db` (src/helpers/helpers_export.py lines 41-70) -/

/-- The relational store: named tables in creation order. -/
abbrev Store := List (String × Frame)

/-- A SQLAlchemy `MetaData` object: it knows exactly the tables that have been
bound to it (by declaration or reflection). -/
structure SAMetaData where
  registered : List String
deriving Repr

/-- `MetaData()` as the source constructs it at line 59: freshly created, with no
table bound — the source never calls `reflect` or binds a table to it, so no
table of the existing database is known to this object. -/
def MetaData.new : SAMetaData := ⟨[]⟩

/-- `meta.drop_all(con)`: SQLAlchemy drops exactly the tables registered on the
metadata object (tables of the database it does not know about are untouched). -/
def SAMetaData.drop_all (m : SAMetaData) (store : Store) : Store :=
  store.filter (fun t => !(m.registered.contains t.1))

/-- Row-wise append of one frame onto an existing table (per matching column name). -/
def appendRows (old new : Frame) : Frame :=
  old.map (fun p => (p.1, p.2 ++ (((new.find? (fun q => q.1 == p.1)).map Prod.snd).getD [])))

/-- `df.to_sql(name, con, if_exists=..., index=False)`: `replace` drops the
same-named table and writes the frame; `append` adds rows to it (creating it
when absent). -/
def to_sql (nm : String) (df : Frame) (append_data : Bool) (store : Store) : Store :=
  if append_data then
    if store.any (fun t => t.1 == nm) then
      store.map (fun t => if t.1 == nm then (t.1, appendRows t.2 df) else t)
    else
      store ++ [(nm, df)]
  else
    (store.filter (fun t => !(t.1 == nm))) ++ [(nm, df)]

/-- `dataframes_to_db(dataframes, db_path, drop_all_tables, append_data)`
(src/helpers/helpers_export.py lines 41-70), acting on the store at `db_path`:
construct a fresh `MetaData()`, call `drop_all` on it when `drop_all_tables`
is set, then `to_sql` each frame in order with `replace`/`append` semantics. -/
def dataframes_to_db (dataframes : List (String × Frame)) (store : Store)
    (drop_all_tables : Bool) (append_data : Bool) : Store :=
  let meta := MetaData.new
  let store1 := if drop_all_tables then meta.drop_all store else store
  dataframes.foldl (fun st p => to_sql p.1 p.2 append_data st) store1

/-! ## Serializer: `dict_to_serialized_file` (src/helpers/helpers_serialize.py lines 61-93) -/

/-- The payload dictionary handed to the serializer. -/
abbrev Dict := List (String × String)

/-- Content of the target file after the call. -/
inductive FileState where
  | empty
  | yamlOf (d : Dict)
  | jsonOf (d : Dict)
  | tomlOf (d : Dict)
deriving DecidableEq, Repr

/-- `os.path.splitext(path)` second component, for paths whose final component
carries the dot (the only case the repository exercises). -/
def extOf (path : String) : String :=
  if path.toList.contains '.' then
    "." ++ String.mk ((path.toList.reverse.takeWhile (fun ch => ch ≠ '.')).reverse)
  else ""

/-- `dict_to_serialized_file(data, path)`: `open(path, "w")` truncates the file,
the `if/elif` chain dumps for a recognized extension, and — the chain having no
`else` and no branch returning — control always falls through to the
unconditional `raise ValueError(...)` at the end of the `with` block.
Result: (file content on disk afterwards, outcome of the call). -/
def dict_to_serialized_file (data : Dict) (path : String) : FileState × Except String Unit :=
  let extension := extOf path
  let file : FileState := .empty
  let file := if extension == ".yaml" then .yamlOf data
    else if extension == ".json" then .jsonOf data
    else if extension == ".toml" then .tomlOf data
    else file
  (file, .error ("Unsupported file extension " ++ extension ++ " | file=" ++ path))

example : extOf "config.yaml" = ".yaml" := by decide

/-! ## Indicators (src/helpers/helpers_streamlit.py) -/

/-- `close.pct_change().dropna()` (`compute_daily_returns`): the percentage
change between consecutive points, the first (undefined) entry dropped. -/
def compute_daily_returns (close : List ℚ) : List ℚ :=
  (close.zip close.tail).map (fun p => p.2 / p.1 - 1)

/-- `returns.mean()`. -/
def seriesMean (xs : List ℚ) : ℚ := xs.sum / xs.length

/-- `returns.std(ddof=1) ^ 2`: the sample variance, `none` when pandas yields
NaN (fewer than two observations). Working with the square avoids the
irrational square root while deciding exactly the same zero test, since
`std = 0 ↔ std² = 0`. -/
def sampleVar (xs : List ℚ) : Option ℚ :=
  if xs.length < 2 then none
  else some (((xs.map (fun x => (x - seriesMean xs) ^ 2)).sum) / ((xs.length : ℚ) - 1))

/-- The value `compute_sharpe` returns, represented exactly: the Sharpe ratio is
`excess / Real.sqrt varAnnualized` with `excess = mean(returns)*T - rfr` and
`varAnnualized = var(returns)*T` the square of the annualized volatility. -/
structure SharpeVal where
  excess : ℚ
  varAnnualized : ℚ
deriving DecidableEq, Repr

/-- `compute_sharpe(returns, risk_free_rate, trading_days_per_year)`
(src/helpers/helpers_streamlit.py lines 61-77): `vol = std(ddof=1)*sqrt(T)`;
raises when `vol == 0`; otherwise returns `(mean*T - rfr)/vol`. When the sample
std is NaN (a single observation), the float comparison `vol == 0` is False, so
nothing is raised and a NaN value (`Except.ok none`) is returned. The boolean
`vol == 0` is decided through the square: `std*sqrt T = 0 ↔ std²*T = 0`. -/
def compute_sharpe (returns : List ℚ) (risk_free_rate : ℚ) (trading_days_per_year : ℕ) :
    Except String (Option SharpeVal) :=
  match sampleVar returns with
  | none => .ok none
  | some v =>
    if v * trading_days_per_year == 0 then
      .error "Volatility is zero, Sharpe ratio cannot be calculated."
    else
      .ok (some ⟨seriesMean returns * trading_days_per_year - risk_free_rate,
                 v * trading_days_per_year⟩)

/-- `compute_cumulative_return(close) = close.iloc[-1] / close.iloc[0] - 1`
(src/helpers/helpers_streamlit.py lines 26-35); `iloc` on an empty series
raises, modelled by `none`. -/
def compute_cumulative_return (close : List ℚ) : Option ℚ :=
  match close with
  | [] => none
  | h :: t => some ((h :: t).getLast (List.cons_ne_nil h t) / h - 1)

example : compute_daily_returns [5, 5] = [0] := by norm_num [compute_daily_returns]
example : compute_sharpe [0] 0 252 = .ok none := by norm_num [compute_sharpe, sampleVar]
example : compute_cumulative_return [4] = some 0 := by
  norm_num [compute_cumulative_return]
example : compute_sharpe [0, 0] 0 252 =
    .error "Volatility is zero, Sharpe ratio cannot be calculated." := by
  norm_num [compute_sharpe, sampleVar, seriesMean]

/-! ## Benchmark reshape (src/repository/etl_benchmark.py lines 106-123) -/

/-- One cell of the raw wide price frame: the five price fields of a
(date, instrument) pair, each possibly missing. -/
structure OHLCV where
  opn : Option ℚ
  high : Option ℚ
  low : Option ℚ
  close : Option ℚ
  volume : Option ℚ
deriving DecidableEq, Repr

/-- One long-form record: `{Date, Ticker, Open, High, Low, Close, Volume}`
(`opn` stands for the `Open` field; `open` is reserved in Lean). -/
structure LongRow where
  date : ℚ
  ticker : String
  opn : Option ℚ
  high : Option ℚ
  low : Option ℚ
  close : Option ℚ
  volume : Option ℚ
deriving DecidableEq, Repr

/-- The raw two-level-column frame returned by the remote fetch: rows indexed by
date, columns keyed by (ticker, field); `cell` reads one (date, ticker) cell. -/
structure WideFrame where
  dates : List ℚ
  tickers : List String
  cell : ℚ → String → OHLCV

/-- The five price fields of a long row, as a cell. -/
def LongRow.fields (r : LongRow) : OHLCV := ⟨r.opn, r.high, r.low, r.close, r.volume⟩

/-- A cell with all of Open/High/Low/Close/Volume missing. -/
def allMissing (c : OHLCV) : Bool :=
  c.opn.isNone && c.high.isNone && c.low.isNone && c.close.isNone && c.volume.isNone

/-- The (date, ticker) cells of the wide frame, row-major. -/
def cellPairs (w : WideFrame) : List (ℚ × String) :=
  w.dates.flatMap (fun d => w.tickers.map (fun t => (d, t)))

/-- The long row built for one (date, ticker) cell. -/
def mkLongRow (w : WideFrame) (p : ℚ × String) : LongRow :=
  let c := w.cell p.1 p.2
  ⟨p.1, p.2, c.opn, c.high, c.low, c.close, c.volume⟩

/-- `df.stack(level=0, future_stack=True).reset_index()` followed by the column
selection: one long row for every (date, ticker) combination, no row dropped
(`future_stack=True` keeps all-NaN rows). -/
def stackLevel0 (w : WideFrame) : List LongRow :=
  w.dates.flatMap (fun d => w.tickers.map (fun t => mkLongRow w (d, t)))

/-- `df.dropna(how="all", subset=["Open","High","Low","Close","Volume"])`:
keep exactly the rows with at least one of the five fields non-missing. -/
def dropnaAllSubset (rows : List LongRow) : List LongRow :=
  rows.filter (fun r => !(allMissing r.fields))

/-- Steps 1.1-1.3 of `BenchmarkETL.transform`: stack to long form, then drop
fully missing rows. -/
def benchmarkReshape (w : WideFrame) : List LongRow :=
  dropnaAllSubset (stackLevel0 w)

/-- The number of (date, instrument) cells of the source wide frame having at
least one non-missing field. -/
def countNonFullyMissing (w : WideFrame) : ℕ :=
  (cellPairs w).countP (fun p => !(allMissing (w.cell p.1 p.2)))

/-- The long rows laid out as a `Frame` for the Column Normalizer steps
(columns `Date, Ticker, Open, High, Low, Close, Volume` in source order). -/
def optVal : Option ℚ → Value
  | some q => .num q
  | none => .missing

def longToFrame (rows : List LongRow) : Frame :=
  [("Date", rows.map (fun r => Value.num r.date)),
   ("Ticker", rows.map (fun r => Value.str r.ticker)),
   ("Open", rows.map (fun r => optVal r.opn)),
   ("High", rows.map (fun r => optVal r.high)),
   ("Low", rows.map (fun r => optVal r.low)),
   ("Close", rows.map (fun r => optVal r.close)),
   ("Volume", rows.map (fun r => optVal r.volume))]

/-! ## ETL pipeline state machines (src/repository/etl_metadata.py, etl_benchmark.py) -/

/-- The mutable state of a `MetadataETL` object: `self.df_raw` and
`self.df_transformed`, both `None` after `__init__`. -/
structure MetadataETL where
  df_raw : Option Frame
  df_transformed : Option Frame

/-- `MetadataETL.transform` (lines 61-110): raises `ValueError("No data to
transform.")` when `extract()` has not populated `df_raw`; otherwise runs the
Column Normalizer and stores the result in `df_transformed`. -/
def MetadataETL.transform (cfg : ColumnsSpec) (s : MetadataETL) :
    Except String MetadataETL :=
  match s.df_raw with
  | none => .error "No data to transform."
  | some raw => (transformFrame cfg raw).map (fun t => { s with df_transformed := some t })

/-- `MetadataETL.load` (lines 112-140), SQLite branch: raises `ValueError("No
data to load.")` when `transform()` has not populated `df_transformed`;
otherwise exports `{metadata_sheet: df_transformed}` through
`dataframes_to_db(..., drop_all_tables=True)` (line 136). -/
def MetadataETL.load (sheet : String) (s : MetadataETL) (store : Store) :
    Except String Store :=
  match s.df_transformed with
  | none => .error "No data to load."
  | some t => .ok (dataframes_to_db [(sheet, t)] store true false)

/-- The mutable state of a `BenchmarkETL` object. -/
structure BenchmarkETL where
  df_raw : Option WideFrame
  df_transformed : Option Frame

/-- `BenchmarkETL.transform` (lines 89-156): the reshape (steps 1.1-1.3)
followed by the five Column Normalizer steps. -/
def benchTransformFrame (spec : ColumnsSpec) (w : WideFrame) : Except String Frame :=
  transformFrame spec (longToFrame (benchmarkReshape w))

/-- `BenchmarkETL.transform`: raises `ValueError("No data to transform.")`
when `extract()` has not populated `df_raw`. -/
def BenchmarkETL.transform (cfg : ColumnsSpec) (s : BenchmarkETL) :
    Except String BenchmarkETL :=
  match s.df_raw with
  | none => .error "No data to transform."
  | some w => (benchTransformFrame cfg w).map (fun t => { s with df_transformed := some t })

/-- `BenchmarkETL.load` (lines 158-195), SQLite branch (line 191 passes
`drop_all_tables=True`). -/
def BenchmarkETL.load (sheet : String) (s : BenchmarkETL) (store : Store) :
    Except String Store :=
  match s.df_transformed with
  | none => .error "No data to load."
  | some t => .ok (dataframes_to_db [(sheet, t)] store true false)

/-! ## Alignment & Indicator Engine: `PortfolioDashboard.prepare_data`
(src/view/streamlit_view.py lines 202-279) -/

/-- One row of the merged analytic table (`Data.df_merged`): date, ticker, and
the closing price (possibly NaN); the descriptive metadata attributes play no
role in `prepare_data`. -/
structure MergedRow where
  date : ℚ
  ticker : String
  close : Option ℚ
deriving DecidableEq, Repr

/-- First-occurrence deduplication (`pandas.Series.unique`). -/
def dedupAux [DecidableEq α] (seen : List α) : List α → List α
  | [] => []
  | x :: xs => if x ∈ seen then dedupAux seen xs else x :: dedupAux (x :: seen) xs

def dedup [DecidableEq α] (l : List α) : List α := dedupAux [] l

/-- Insertion sort on dates (`.sort_index()`). -/
def insertSorted (x : ℚ) : List ℚ → List ℚ
  | [] => [x]
  | y :: ys => if x ≤ y then x :: y :: ys else y :: insertSorted x ys

def sortDates (l : List ℚ) : List ℚ := l.foldr insertSorted []

/-- The window-and-selection filter of steps 0 and 3:
`df[(df['date'] >= start) & (df['date'] <= end) & (df['ticker'].isin(tickers))]`. -/
def filterResult (df : List MergedRow) (start_date end_date : ℚ) (tickers : List String) :
    List MergedRow :=
  df.filter (fun r =>
    decide (start_date ≤ r.date) && decide (r.date ≤ end_date) && tickers.contains r.ticker)

/-- A date × ticker closing-price matrix (the result of
`pivot(index='date', columns='ticker', values='close')`): the ticker header and
one row of optional prices per date. -/
structure PivotFrame where
  tickers : List String
  rows : List (ℚ × List (Option ℚ))
deriving DecidableEq, Repr

/-- `df.pivot(index='date', columns='ticker', values='close').sort_index()`:
dates become the sorted row index, tickers the columns; a cell is the close of
the matching row, NaN when the (date, ticker) pair has no row. -/
def pivotClose (df : List MergedRow) : PivotFrame :=
  let ds := sortDates (dedup (df.map (fun r => r.date)))
  let ts := dedup (df.map (fun r => r.ticker))
  ⟨ts, ds.map (fun d =>
    (d, ts.map (fun t => (df.find? (fun r => r.date == d && r.ticker == t)).bind
      (fun r => r.close))))⟩

/-- `df.dropna(how='any', axis=0)`: keep only dates where every ticker column
has a price. -/
def dropnaAnyRows (p : PivotFrame) : PivotFrame :=
  ⟨p.tickers, p.rows.filter (fun row => row.2.all (fun v => v.isSome))⟩

/-- `df.mean(axis=1)` on one pivot row (pandas skips NaN; NaN when all are NaN). -/
def rowMean (vals : List (Option ℚ)) : Option ℚ :=
  let xs := vals.filterMap id
  if xs.isEmpty then none else some (xs.sum / xs.length)

/-- Step 6: the per-date unweighted arithmetic mean across instruments followed
by `.dropna()`. -/
def meanSeries (p : PivotFrame) : List (ℚ × ℚ) :=
  p.rows.filterMap (fun row => (rowMean row.2).map (fun m => (row.1, m)))

/-- `PortfolioDashboard.prepare_data(start_date, end_date, tickers)`
(src/view/streamlit_view.py lines 202-279): filter to window ∩ selection (halt
when empty), pivot and drop any-missing dates (halt when empty), build the same
pivot for the whole universe, drop any-missing dates on both, intersect the two
date indices, restrict both, and collapse each matrix by a per-date mean.
Returns the (portfolio, benchmark) price series, `none` on either halt. -/
def prepare_data (df : List MergedRow) (start_date end_date : ℚ) (tickers : List String) :
    Option (List (ℚ × ℚ) × List (ℚ × ℚ)) :=
  let df_result := filterResult df start_date end_date tickers
  if df_result.isEmpty then none
  else
    let df_pivot := dropnaAnyRows (pivotClose df_result)
    if df_pivot.rows.isEmpty then none
    else
      let benchmark_tickers := dedup (df.map (fun r => r.ticker))
      let df_benchmark := filterResult df start_date end_date benchmark_tickers
      let df_bench_pivot := pivotClose df_benchmark
      let df_pivot2 := dropnaAnyRows df_pivot
      let df_bench_pivot2 := dropnaAnyRows df_bench_pivot
      let common := (df_pivot2.rows.map (fun r => r.1)).filter
        (fun d => (df_bench_pivot2.rows.map (fun r => r.1)).contains d)
      let df_pivot3 : PivotFrame :=
        ⟨df_pivot2.tickers, df_pivot2.rows.filter (fun r => common.contains r.1)⟩
      let df_bench_pivot3 : PivotFrame :=
        ⟨df_bench_pivot2.tickers, df_bench_pivot2.rows.filter (fun r => common.contains r.1)⟩
      some (meanSeries df_pivot3, meanSeries df_bench_pivot3)

/-- The merged table of the end-to-end scenario: instrument A has closes
[10,11,12] on dates 1,2,3; B has [20,19,21]; C has no rows in the window. -/
def scenarioRows : List MergedRow :=
  [⟨1, "A", some 10⟩, ⟨2, "A", some 11⟩, ⟨3, "A", some 12⟩,
   ⟨1, "B", some 20⟩, ⟨2, "B", some 19⟩, ⟨3, "B", some 21⟩]

/-! ## Definitions written from the claims, for comparison with the source -/

/-- Modelled from the claim's words (spec §4.1d): the existence check is
performed on the column's ORIGINAL (pre-rename) name while the coercion is
applied to the column's post-rename name. To be compared with `stringStep`,
the definition taken from the source. -/
def stringStepPreCheck (cols : List String) (m : Rename) (df : Frame) : Frame :=
  match cols with
  | [] => df
  | col :: cs =>
    stringStepPreCheck cs m (if hasCol df col then astypeCol (renameGet m col) df else df)

/-- The post-rename reading of the string-coercion step, written pointwise: a
column is coerced exactly when its (current) name is the post-rename image of
some string-tagged column. To be proved extensionally equal to `stringStep`. -/
def stringStepPointwise (cols : List String) (m : Rename) (df : Frame) : Frame :=
  df.map (fun p =>
    if cols.any (fun col => renameGet m col == p.1) then (p.1, p.2.map astypeStr) else p)

/-- A frame is `colFixed g c` when every column named `c` is a fixed point of
the cell coercion `g` — the invariant behind idempotence of the numeric step. -/
def colFixed (g : Value → Except String Value) (c : String) (f : Frame) : Prop :=
  ∀ p ∈ f, p.1 = c → colMapE g p.2 = .ok p.2

/-- The concrete tables of the loader scenario: a pre-existing table named
`legacy` and a freshly loaded frame named `prices`. -/
def legacyTable : Frame := [("a", [Value.num 1])]

def pricesTable : Frame := [("close", [Value.num 2])]

def preexistingStore : Store := [("legacy", legacyTable)]

/-- A small concrete wide frame: two dates, two tickers, with the (2, "B")
cell fully missing (B not yet trading on date 2) and every other cell full. -/
def wideScenario : WideFrame :=
  ⟨[1, 2], ["A", "B"], fun d t =>
    if d == 2 && t == "B" then ⟨none, none, none, none, none⟩
    else ⟨some 1, some 2, some 3, some 4, some 5⟩⟩

/-! ## Helper lemmas -/

theorem hasCol_eq_true_iff (df : Frame) (c : String) :
    hasCol df c = true ↔ c ∈ df.columns := by
  simp [hasCol, Frame.columns, List.any_eq_true]

theorem hasCol_eq_false_iff (df : Frame) (c : String) :
    hasCol df c = false ↔ c ∉ df.columns := by
  rw [← hasCol_eq_true_iff]
  cases hasCol df c <;> simp

/-! ## C1 — the loader with `drop_all_tables=True` -/

/-- C1 (code bug): dropping via a freshly constructed `MetaData()` drops nothing
(no table is registered on it), so `dataframes_to_db` with
`drop_all_tables=True` leaves every pre-existing table in place: loading the
single frame `prices` into a store already holding `legacy` yields a store
still containing `legacy`, contradicting the claim that the store then holds
exactly the newly loaded tables. -/
theorem dataframes_to_db_drop_all_keeps_preexisting :
    (∀ store : Store, MetaData.new.drop_all store = store)
    ∧ dataframes_to_db [("prices", pricesTable)] preexistingStore true false
        = [("legacy", legacyTable), ("prices", pricesTable)]
    ∧ (dataframes_to_db [("prices", pricesTable)] preexistingStore true false).map Prod.fst
        ≠ ["prices"] := by
  refine ⟨fun store => ?_, by decide, by decide⟩
  simp [MetaData.new, SAMetaData.drop_all]

/-! ## C8 — sequencing errors of both pipelines -/

/-- C8: for both the Metadata and the Benchmark pipeline, `transform()` with no
extracted data and `load()` with no transformed data raise the invalid-state
"no data" error, and (the call returning `Except.error`) produce no transformed
frame and no store write. -/
theorem etl_sequencing_errors (cfg : ColumnsSpec) (sheet : String) (store : Store)
    (sm : MetadataETL) (sb : BenchmarkETL) :
    (sm.df_raw = none → MetadataETL.transform cfg sm = .error "No data to transform.")
    ∧ (sm.df_transformed = none → MetadataETL.load sheet sm store = .error "No data to load.")
    ∧ (sb.df_raw = none → BenchmarkETL.transform cfg sb = .error "No data to transform.")
    ∧ (sb.df_transformed = none → BenchmarkETL.load sheet sb store = .error "No data to load.") := by
  refine ⟨fun h => ?_, fun h => ?_, fun h => ?_, fun h => ?_⟩ <;>
    simp [MetadataETL.transform, MetadataETL.load, BenchmarkETL.transform, BenchmarkETL.load, h]

/-- C8 witness: a freshly initialized pipeline state (both fields `None`)
raises on `transform()` and on `load()` in both pipelines. -/
theorem etl_sequencing_errors_witness :
    MetadataETL.transform ⟨[], [], [], [], []⟩ ⟨none, none⟩ = .error "No data to transform."
    ∧ MetadataETL.load "metadata" ⟨none, none⟩ [] = .error "No data to load."
    ∧ BenchmarkETL.transform ⟨[], [], [], [], []⟩ ⟨none, none⟩ = .error "No data to transform."
    ∧ BenchmarkETL.load "benchmark" ⟨none, none⟩ [] = .error "No data to load." :=
  let t := etl_sequencing_errors ⟨[], [], [], [], []⟩ "metadata" [] ⟨none, none⟩ ⟨none, none⟩
  let u := etl_sequencing_errors ⟨[], [], [], [], []⟩ "benchmark" [] ⟨none, none⟩ ⟨none, none⟩
  ⟨t.1 rfl, t.2.1 rfl, u.2.2.1 rfl, u.2.2.2 rfl⟩

/-! ## C10 — `dict_to_serialized_file` always raises -/

/-- C10: `dict_to_serialized_file` raises `ValueError` for every input path —
the `raise` sits unconditionally after the extension `if/elif` chain — and for
the supported extensions `.yaml`/`.json`/`.toml` the serialized data has been
written to the file before the raise; the function never returns normally. -/
theorem dict_to_serialized_file_always_raises (data : Dict) (path : String) :
    (dict_to_serialized_file data path).2 =
      .error ("Unsupported file extension " ++ extOf path ++ " | file=" ++ path)
    ∧ (extOf path = ".yaml" → (dict_to_serialized_file data path).1 = .yamlOf data)
    ∧ (extOf path = ".json" → (dict_to_serialized_file data path).1 = .jsonOf data)
    ∧ (extOf path = ".toml" → (dict_to_serialized_file data path).1 = .tomlOf data) := by
  refine ⟨rfl, fun h => ?_, fun h => ?_, fun h => ?_⟩ <;>
    simp [dict_to_serialized_file, h]

/-- C10 witness: at the supported path `config.yaml` the call writes the YAML
serialization and still raises. -/
theorem dict_to_serialized_file_always_raises_witness :
    (dict_to_serialized_file [("k", "v")] "config.yaml").2 =
      .error "Unsupported file extension .yaml | file=config.yaml"
    ∧ (dict_to_serialized_file [("k", "v")] "config.yaml").1 = .yamlOf [("k", "v")] :=
  ⟨(dict_to_serialized_file_always_raises [("k", "v")] "config.yaml").1,
   (dict_to_serialized_file_always_raises [("k", "v")] "config.yaml").2.1 (by decide)⟩

/-! ## C6 — cumulative return -/

/-- C6: `compute_cumulative_return` returns last/first − 1 on every series of
at least two points, and on a single-point series with nonzero price it
returns exactly 0 (the self-ratio minus one) rather than failing. -/
theorem compute_cumulative_return_spec :
    (∀ (x y : ℚ) (rest : List ℚ),
      compute_cumulative_return (x :: y :: rest) =
        some ((x :: y :: rest).getLast (List.cons_ne_nil x (y :: rest)) / x - 1))
    ∧ ∀ p : ℚ, p ≠ 0 → compute_cumulative_return [p] = some 0 := by
  constructor
  · intro x y rest
    rfl
  · intro p hp
    simp [compute_cumulative_return, List.getLast, div_self hp]

/-- C6 witness: the two-point series [2, 3] yields 3/2 − 1, and the
single-point series [5] yields 0. -/
theorem compute_cumulative_return_spec_witness :
    compute_cumulative_return [2, 3] = some ((3 : ℚ) / 2 - 1)
    ∧ compute_cumulative_return [5] = some 0 :=
  ⟨compute_cumulative_return_spec.1 2 3 [], compute_cumulative_return_spec.2 5 (by norm_num)⟩

/-! ## C5 — end-to-end scenario through `prepare_data` -/

set_option maxHeartbeats 1000000 in
/-- C5: on the merged table where A has closes [10,11,12], B has [20,19,21] and
C has no rows in the window, `prepare_data` over the window with selection
{A,B} yields the 3-point portfolio series [15, 15, 16.5] (per-date unweighted
arithmetic mean over the selection), and the cumulative return of that series
is 16.5/15 − 1 = 0.10. -/
theorem prepare_data_scenario :
    prepare_data scenarioRows 1 3 ["A", "B"] =
      some ([(1, 15), (2, 15), (3, 33 / 2)], [(1, 15), (2, 15), (3, 33 / 2)])
    ∧ compute_cumulative_return
        (((prepare_data scenarioRows 1 3 ["A", "B"]).getD ([], [])).1.map Prod.snd) =
      some (1 / 10) := by
  have h : prepare_data scenarioRows 1 3 ["A", "B"] =
      some ([(1, 15), (2, 15), (3, 33 / 2)], [(1, 15), (2, 15), (3, 33 / 2)]) := by
    simp +decide [prepare_data, filterResult, pivotClose, dropnaAnyRows, meanSeries, rowMean,
      dedup, dedupAux, sortDates, insertSorted, scenarioRows]
    norm_num
  refine ⟨h, ?_⟩
  rw [h]
  norm_num [compute_cumulative_return, List.getLast]

/-! ## C2 — the string-coercion step's existence check -/

theorem astypeStr_idem (v : Value) : astypeStr (astypeStr v) = astypeStr v := by
  cases v <;> rfl

/-- C2 counterexample: with string group `["a"]` and rename `{"a": "b"}` on a
frame having only a (numeric) column `b`, the source coerces `b` — it checks
existence of the post-rename name — while the claimed behavior (check the
original name `a`, absent here, then coerce `b`) leaves the frame untouched.
The two disagree, refuting the claim that the existence check uses the
pre-rename name. -/
theorem stringStep_precheck_counterexample :
    stringStep ["a"] [("a", "b")] [("b", [Value.num 1])] = [("b", [Value.str "1"])]
    ∧ stringStepPreCheck ["a"] [("a", "b")] [("b", [Value.num 1])] = [("b", [Value.num 1])]
    ∧ stringStep ["a"] [("a", "b")] [("b", [Value.num 1])]
        ≠ stringStepPreCheck ["a"] [("a", "b")] [("b", [Value.num 1])] := by
  decide

/-- C2 amended: in the string-coercion step, the existence check and the
coercion target use the same, post-rename name: the step coincides extensionally
with the pointwise rule that coerces a column exactly when its current name
is the post-rename image of some string-tagged column. -/
theorem stringStep_eq_pointwise (cols : List String) (m : Rename) (df : Frame) :
    stringStep cols m df = stringStepPointwise cols m df := by
  induction cols generalizing df with
  | nil => simp [stringStep, stringStepPointwise]
  | cons col cs ih =>
    rw [stringStep, ih]
    by_cases h : hasCol df (renameGet m col) = true
    · simp only [h, if_true]
      simp only [stringStepPointwise, astypeCol, List.map_map]
      refine List.map_congr_left ?_
      intro p _
      simp only [Function.comp]
      by_cases hp : p.1 = renameGet m col
      · have hb : (p.1 == renameGet m col) = true := by simp [hp]
        have hb' : (renameGet m col == p.1) = true := by simp [hp]
        simp only [hb, if_true, List.any_cons, hb', Bool.true_or, if_true]
        split
        · simp [List.map_map, Function.comp, astypeStr_idem]
        · rfl
      · have hb : (p.1 == renameGet m col) = false := by simp [hp]
        have hb' : (renameGet m col == p.1) = false := by
          simp only [beq_eq_false_iff_ne, ne_eq]
          intro hc
          exact hp hc.symm
        simp [hb, hb', List.any_cons]
    · have h' : hasCol df (renameGet m col) = false := by
        cases hcs : hasCol df (renameGet m col)
        · rfl
        · exact absurd hcs h
      simp only [h', Bool.false_eq_true, if_false]
      simp only [stringStepPointwise]
      refine List.map_congr_left ?_
      intro p hp
      have hne : (renameGet m col == p.1) = false := by
        rcases hb : renameGet m col == p.1 with _ | _
        · rfl
        · exfalso
          apply h
          rw [hasCol_eq_true_iff]
          simp only [Frame.columns, List.mem_map]
          exact ⟨p, hp, (beq_iff_eq.mp hb).symm⟩
      simp [List.any_cons, hne]

/-! ## C9 — the numeric-coercion step -/

theorem toNumericE_fix (v w : Value) (h : toNumericE v = .ok w) : toNumericE w = .ok w := by
  cases v with
  | num q => simp [toNumericE] at h; subst h; rfl
  | date q => simp [toNumericE] at h; subst h; rfl
  | missing => simp [toNumericE] at h; subst h; rfl
  | str s =>
    cases hp : parseNum s with
    | none => simp [toNumericE, hp] at h
    | some q => simp [toNumericE, hp] at h; subst h; rfl

theorem colMapE_fix (g : Value → Except String Value)
    (hg : ∀ v w, g v = .ok w → g w = .ok w) :
    ∀ vs ws, colMapE g vs = .ok ws → colMapE g ws = .ok ws := by
  intro vs
  induction vs with
  | nil =>
    intro ws h
    simp [colMapE] at h
    subst h
    rfl
  | cons v vs ih =>
    intro ws h
    cases hv : g v with
    | error e => simp [colMapE, hv] at h
    | ok w =>
      cases hvs : colMapE g vs with
      | error e => simp [colMapE, hv, hvs] at h
      | ok ws' =>
        simp only [colMapE, hv, hvs] at h
        cases h
        simp [colMapE, hg v w hv, ih ws' hvs]

theorem coerceColE_mem (g : Value → Except String Value) (c : String) :
    ∀ (df df' : Frame), coerceColE g c df = .ok df' → ∀ p' ∈ df',
      (p' ∈ df ∧ p'.1 ≠ c) ∨ (∃ p ∈ df, p.1 = p'.1 ∧ p'.1 = c ∧ colMapE g p.2 = .ok p'.2) := by
  intro df
  induction df with
  | nil =>
    intro df' h p' hp'
    simp [coerceColE] at h
    subst h
    simp at hp'
  | cons p rest ih =>
    intro df' h p' hp'
    cases hrest : coerceColE g c rest with
    | error e => simp [coerceColE, hrest] at h
    | ok rest' =>
      by_cases hc : (p.1 == c) = true
      · cases hvs : colMapE g p.2 with
        | error e => simp [coerceColE, hrest, hc, hvs] at h
        | ok vs' =>
          simp only [coerceColE, hrest, hc, hvs, if_true] at h
          cases h
          rcases List.mem_cons.mp hp' with h1 | h1
          · subst h1
            exact Or.inr ⟨p, List.mem_cons_self p rest, rfl, beq_iff_eq.mp hc, hvs⟩
          · rcases ih rest' hrest p' h1 with ⟨h2, h3⟩ | ⟨q, hq, h2, h3, h4⟩
            · exact Or.inl ⟨List.mem_cons_of_mem p h2, h3⟩
            · exact Or.inr ⟨q, List.mem_cons_of_mem p hq, h2, h3, h4⟩
      · simp only [coerceColE, hrest, hc] at h
        rw [if_neg (by simp)] at h
        cases h
        rcases List.mem_cons.mp hp' with h1 | h1
        · subst h1
          exact Or.inl ⟨List.mem_cons_self p' rest, by simp at hc; exact hc⟩
        · rcases ih rest' hrest p' h1 with ⟨h2, h3⟩ | ⟨q, hq, h2, h3, h4⟩
          · exact Or.inl ⟨List.mem_cons_of_mem p h2, h3⟩
          · exact Or.inr ⟨q, List.mem_cons_of_mem p hq, h2, h3, h4⟩

theorem coerceColE_columns (g : Value → Except String Value) (c : String) :
    ∀ (df df' : Frame), coerceColE g c df = .ok df' →
      df'.map Prod.fst = df.map Prod.fst := by
  intro df
  induction df with
  | nil =>
    intro df' h
    simp [coerceColE] at h
    subst h
    rfl
  | cons p rest ih =>
    intro df' h
    cases hrest : coerceColE g c rest with
    | error e => simp [coerceColE, hrest] at h
    | ok rest' =>
      by_cases hc : (p.1 == c) = true
      · cases hvs : colMapE g p.2 with
        | error e => simp [coerceColE, hrest, hc, hvs] at h
        | ok vs' =>
          simp only [coerceColE, hrest, hc, hvs, if_true] at h
          cases h
          simp [ih rest' hrest]
      · simp only [coerceColE, hrest] at h
        rw [if_neg hc] at h
        cases h
        simp [ih rest' hrest]

theorem coerceColE_preserves_fixed (g : Value → Except String Value)
    (hg : ∀ v w, g v = .ok w → g w = .ok w) (c c0 : String) (df df' : Frame)
    (h : coerceColE g c df = .ok df') (hf : colFixed g c0 df) : colFixed g c0 df' := by
  intro p' hp' hname
  rcases coerceColE_mem g c df df' h p' hp' with ⟨h1, _⟩ | ⟨q, hq, _, _, h4⟩
  · exact hf p' h1 hname
  · exact colMapE_fix g hg q.2 p'.2 h4

theorem coerceColE_fixes (g : Value → Except String Value)
    (hg : ∀ v w, g v = .ok w → g w = .ok w) (c : String) (df df' : Frame)
    (h : coerceColE g c df = .ok df') : colFixed g c df' := by
  intro p' hp' hname
  rcases coerceColE_mem g c df df' h p' hp' with ⟨_, h2⟩ | ⟨q, hq, _, _, h4⟩
  · exact absurd hname h2
  · exact colMapE_fix g hg q.2 p'.2 h4

theorem coerceColE_of_fixed (g : Value → Except String Value) (c : String) :
    ∀ df : Frame, colFixed g c df → coerceColE g c df = .ok df := by
  intro df
  induction df with
  | nil => intro _; rfl
  | cons p rest ih =>
    intro hf
    have hrest : coerceColE g c rest = .ok rest :=
      ih (fun q hq hn => hf q (List.mem_cons_of_mem p hq) hn)
    by_cases hc : (p.1 == c) = true
    · have hvs : colMapE g p.2 = .ok p.2 :=
        hf p (List.mem_cons_self p rest) (beq_iff_eq.mp hc)
      simp [coerceColE, hrest, hc, hvs]
    · simp only [coerceColE, hrest]
      rw [if_neg hc]

theorem coerceStepE_columns (g : Value → Except String Value) :
    ∀ (cols : List String) (df f : Frame), coerceStepE g cols df = .ok f →
      f.map Prod.fst = df.map Prod.fst := by
  intro cols
  induction cols with
  | nil =>
    intro df f h
    simp [coerceStepE] at h
    subst h
    rfl
  | cons c cs ih =>
    intro df f h
    by_cases hcol : hasCol df c = true
    · simp only [coerceStepE, hcol, if_true] at h
      cases hd : coerceColE g c df with
      | error e => rw [hd] at h; exact absurd h (by simp)
      | ok d1 =>
        rw [hd] at h
        rw [ih d1 f h, coerceColE_columns g c df d1 hd]
    · simp only [coerceStepE] at h
      rw [if_neg hcol] at h
      exact ih df f h

theorem coerceStepE_preserves_fixed (g : Value → Except String Value)
    (hg : ∀ v w, g v = .ok w → g w = .ok w) (c0 : String) :
    ∀ (cols : List String) (df f : Frame), coerceStepE g cols df = .ok f →
      colFixed g c0 df → colFixed g c0 f := by
  intro cols
  induction cols with
  | nil =>
    intro df f h hf
    simp [coerceStepE] at h
    subst h
    exact hf
  | cons c cs ih =>
    intro df f h hf
    by_cases hcol : hasCol df c = true
    · simp only [coerceStepE, hcol, if_true] at h
      cases hd : coerceColE g c df with
      | error e => rw [hd] at h; exact absurd h (by simp)
      | ok d1 =>
        rw [hd] at h
        exact ih d1 f h (coerceColE_preserves_fixed g hg c c0 df d1 hd hf)
    · simp only [coerceStepE] at h
      rw [if_neg hcol] at h
      exact ih df f h hf

theorem coerceStepE_fixes (g : Value → Except String Value)
    (hg : ∀ v w, g v = .ok w → g w = .ok w) :
    ∀ (cols : List String) (df f : Frame), coerceStepE g cols df = .ok f →
      ∀ c ∈ cols, colFixed g c f := by
  intro cols
  induction cols with
  | nil => intro df f h c hc; simp at hc
  | cons c1 cs ih =>
    intro df f h c hc
    by_cases hcol : hasCol df c1 = true
    · simp only [coerceStepE, hcol, if_true] at h
      cases hd : coerceColE g c1 df with
      | error e => rw [hd] at h; exact absurd h (by simp)
      | ok d1 =>
        rw [hd] at h
        rcases List.mem_cons.mp hc with h1 | h1
        · subst h1
          exact coerceStepE_preserves_fixed g hg c cs d1 f h
            (coerceColE_fixes g hg c df d1 hd)
        · exact ih d1 f h c h1
    · simp only [coerceStepE] at h
      rw [if_neg hcol] at h
      rcases List.mem_cons.mp hc with h1 | h1
      · subst h1
        intro p hp hname
        exfalso
        apply hcol
        rw [hasCol_eq_true_iff]
        have hmem : p.1 ∈ f.map Prod.fst := List.mem_map_of_mem Prod.fst hp
        rw [coerceStepE_columns g cs df f h] at hmem
        rw [← hname]
        exact hmem
      · exact ih df f h c h1

theorem coerceStepE_of_fixed (g : Value → Except String Value) :
    ∀ (cols : List String) (f : Frame), (∀ c ∈ cols, colFixed g c f) →
      coerceStepE g cols f = .ok f := by
  intro cols
  induction cols with
  | nil => intro f _; rfl
  | cons c cs ih =>
    intro f hf
    by_cases hcol : hasCol f c = true
    · have hd : coerceColE g c f = .ok f :=
        coerceColE_of_fixed g c f (hf c (List.mem_cons_self c cs))
      simp only [coerceStepE, hcol, if_true, hd]
      exact ih f (fun c' hc' => hf c' (List.mem_cons_of_mem c hc'))
    · simp only [coerceStepE]
      rw [if_neg hcol]
      exact ih f (fun c' hc' => hf c' (List.mem_cons_of_mem c hc'))

/-- C9 counterexample: the numeric step uses `pd.to_numeric` with its default
`errors='raise'`, so a non-numeric token raises instead of becoming missing:
on the frame `{"x": ["abc"]}` with numeric group `["x"]`, the step errors and
does not yield the frame with the token turned into NaN. -/
theorem numericStep_nonnumeric_raises :
    numericStep ["x"] [("x", [Value.str "abc"])] = .error "Unable to parse string abc"
    ∧ numericStep ["x"] [("x", [Value.str "abc"])] ≠ .ok [("x", [Value.missing])] := by
  decide

/-- C9 amended: the numeric-coercion step raises on non-numeric tokens (they do
not become missing); where it succeeds it is idempotent — if one application
yields a frame, applying the step to that frame succeeds and returns it
unchanged. -/
theorem numericStep_idempotent (cols : List String) (df f : Frame)
    (h : numericStep cols df = .ok f) : numericStep cols f = .ok f := by
  unfold numericStep at h ⊢
  exact coerceStepE_of_fixed toNumericE cols f
    (coerceStepE_fixes toNumericE toNumericE_fix cols df f h)

/-- C9 witness: coercing `{"x": [1, "2"]}` once yields `{"x": [1, 2]}`, and the
theorem applied to that run shows the second application returns it unchanged. -/
theorem numericStep_idempotent_witness :
    numericStep ["x"] [("x", [Value.num 1, Value.num 2])] =
      .ok [("x", [Value.num 1, Value.num 2])] :=
  numericStep_idempotent ["x"] [("x", [Value.num 1, Value.str "2"])]
    [("x", [Value.num 1, Value.num 2])] (by decide)

/-! ## C7 — columns in `drop` and the rename step -/

theorem dropCol_columns_mem (df : Frame) (c n : String) :
    n ∈ (dropCol df c).columns → n ∈ df.columns ∧ n ≠ c := by
  simp only [dropCol, Frame.columns, List.mem_map, List.mem_filter, bne_iff_ne, ne_eq]
  rintro ⟨p, ⟨hp, hne⟩, rfl⟩
  exact ⟨⟨p, hp, rfl⟩, hne⟩

theorem dropStep_columns_mem :
    ∀ (L : List String) (df : Frame) (n : String),
      n ∈ (dropStep L df).columns → n ∈ df.columns ∧ n ∉ L := by
  intro L
  induction L with
  | nil =>
    intro df n h
    exact ⟨h, by simp⟩
  | cons c cs ih =>
    intro df n h
    rw [dropStep] at h
    rcases ih _ n h with ⟨h1, h2⟩
    by_cases hcol : hasCol df c = true
    · rw [if_pos hcol] at h1
      rcases dropCol_columns_mem df c n h1 with ⟨h3, h4⟩
      refine ⟨h3, ?_⟩
      intro hmem
      rcases List.mem_cons.mp hmem with rfl | hmem2
      · exact h4 rfl
      · exact h2 hmem2
    · rw [if_neg hcol] at h1
      refine ⟨h1, ?_⟩
      intro hmem
      rcases List.mem_cons.mp hmem with rfl | hmem2
      · exact hcol ((hasCol_eq_true_iff df n).mpr h1)
      · exact h2 hmem2

theorem astypeCol_columns (c : String) (df : Frame) :
    (astypeCol c df).columns = df.columns := by
  simp only [astypeCol, Frame.columns, List.map_map]
  refine List.map_congr_left ?_
  intro p _
  by_cases h : (p.1 == c) = true
  · simp [Function.comp, h]
  · simp only [Function.comp]
    rw [if_neg h]

theorem stringStep_columns :
    ∀ (cols : List String) (m : Rename) (df : Frame),
      (stringStep cols m df).columns = df.columns := by
  intro cols
  induction cols with
  | nil => intro m df; rfl
  | cons col cs ih =>
    intro m df
    rw [stringStep, ih]
    by_cases h : hasCol df (renameGet m col) = true
    · rw [if_pos h, astypeCol_columns]
    · rw [if_neg h]

theorem renameStep_columns (m : Rename) (df : Frame) :
    (renameStep m df).columns = df.columns.map (renameGet m) := by
  simp [renameStep, Frame.columns, List.map_map, Function.comp]

theorem renameGet_not_dropped (m : Rename) (L : List String) (n : String)
    (hm : ∀ p ∈ m, p.2 ∉ L) (hn : n ∉ L) : renameGet m n ∉ L := by
  unfold renameGet
  cases hfind : m.find? (fun p => p.1 == n) with
  | none => exact hn
  | some p => exact hm p (List.mem_of_find?_eq_some hfind)

/-- C7 counterexample: with `drop = {"d"}` and rename `{"x": "d"}` on a frame
having only column `x`, the drop step removes nothing (d is absent), and the
final rename maps `x` onto `d`, so the dropped name `d` appears in the output —
refuting the claim that no name in `drop` ever appears in the normalized frame. -/
theorem transformFrame_drop_resurrected :
    transformFrame ⟨[], [], [], ["d"], [("x", "d")]⟩ [("x", [Value.num 1])] =
      .ok [("d", [Value.num 1])]
    ∧ hasCol [("d", [Value.num 1])] "d" = true := by
  decide

/-- C7 amended: provided the rename mapping sends no column onto a name listed
in `drop`, no column named in `drop` appears in the normalized output frame,
whether or not it existed in the input. -/
theorem transformFrame_drop_columns (spec : ColumnsSpec)
    (hm : ∀ p ∈ spec.columns_new_names, p.2 ∉ spec.columns_to_drop)
    (df f : Frame) (h : transformFrame spec df = .ok f) :
    ∀ c ∈ spec.columns_to_drop, hasCol f c = false := by
  intro c hcdrop
  unfold transformFrame at h
  cases hd : dateStep spec.columns_date (dropStep spec.columns_to_drop df) with
  | error e =>
    simp only [hd] at h
    exact Except.noConfusion h
  | ok df2 =>
    simp only [hd] at h
    cases hn : numericStep spec.columns_numeric df2 with
    | error e =>
      simp only [hn] at h
      exact Except.noConfusion h
    | ok df3 =>
      simp only [hn] at h
      cases h
      rw [hasCol_eq_false_iff]
      intro hmem
      rw [renameStep_columns, stringStep_columns] at hmem
      rcases List.mem_map.mp hmem with ⟨n, hn3, hren⟩
      have hn2 : n ∈ df2.columns := by
        have := coerceStepE_columns toNumericE spec.columns_numeric df2 df3 hn
        simpa [Frame.columns, this] using hn3
      have hn1 : n ∈ (dropStep spec.columns_to_drop df).columns := by
        have := coerceStepE_columns toDatetimeE spec.columns_date
          (dropStep spec.columns_to_drop df) df2 hd
        simpa [Frame.columns, this] using hn2
      rcases dropStep_columns_mem spec.columns_to_drop df n hn1 with ⟨_, hnotin⟩
      have : renameGet spec.columns_new_names n ∉ spec.columns_to_drop :=
        renameGet_not_dropped spec.columns_new_names spec.columns_to_drop n hm hnotin
      rw [hren] at this
      exact this hcdrop

/-- C7 witness: with `drop = {"d"}` and rename `{"x": "y"}` on the frame with
columns `d` and `x`, the normalized output (columns `["y"]`) is free of `d`. -/
theorem transformFrame_drop_columns_witness :
    hasCol [("y", [Value.num 2])] "d" = false :=
  transformFrame_drop_columns ⟨[], [], [], ["d"], [("x", "y")]⟩ (by decide)
    [("d", [Value.num 1]), ("x", [Value.num 2])] [("y", [Value.num 2])] (by decide)
    "d" (by decide)

/-! ## C3 — the Sharpe ratio's degenerate-volatility condition -/

theorem zip_replicate_succ (c : ℚ) :
    ∀ k : ℕ, (List.replicate (k + 1) c).zip (List.replicate k c) = List.replicate k (c, c) := by
  intro k
  induction k with
  | zero => rfl
  | succ k ih =>
    rw [List.replicate_succ (n := k + 1), List.replicate_succ (n := k)]
    rw [List.zip_cons_cons, ← List.replicate_succ (n := k)]
    rw [ih]
    rfl

theorem compute_daily_returns_replicate (c : ℚ) (hc : c ≠ 0) (n : ℕ) :
    compute_daily_returns (List.replicate n c) = List.replicate (n - 1) 0 := by
  cases n with
  | zero => rfl
  | succ k =>
    unfold compute_daily_returns
    rw [List.replicate_succ, List.tail_cons, ← List.replicate_succ, zip_replicate_succ]
    rw [List.map_replicate]
    simp [div_self hc]

theorem sampleVar_replicate_zero (m : ℕ) (hm : 2 ≤ m) :
    sampleVar (List.replicate m (0 : ℚ)) = some 0 := by
  simp only [sampleVar, List.length_replicate, Nat.not_lt.mpr hm, if_false]
  simp [seriesMean, List.map_replicate]

/-- C3 counterexample: a constant price series of exactly two points has a
single daily return, whose sample standard deviation (`ddof=1`) is NaN; the
float test `vol == 0` is then False, so `compute_sharpe` does NOT raise the
degenerate-volatility error on this constant series — it returns a NaN value. -/
theorem compute_sharpe_two_point_constant_no_raise :
    compute_daily_returns [5, 5] = [0]
    ∧ compute_sharpe [0] 0 252 = .ok none
    ∧ compute_sharpe (compute_daily_returns [5, 5]) 0 252 ≠
        .error "Volatility is zero, Sharpe ratio cannot be calculated." := by
  have h : compute_daily_returns [5, 5] = [0] := by norm_num [compute_daily_returns]
  refine ⟨h, by norm_num [compute_sharpe, sampleVar], ?_⟩
  rw [h]
  norm_num [compute_sharpe, sampleVar]
  simp

/-- C3 amended: `compute_sharpe` computes `(mean*T − rfr)/(std(ddof=1)*√T)` and
raises the degenerate-volatility error exactly when the (defined) annualized
volatility is zero; every constant price series of at least 3 points (nonzero
price) raises it, while a 2-point constant series yields an undefined (NaN)
sample deviation and raises nothing. -/
theorem compute_sharpe_spec (rfr : ℚ) (T : ℕ) (hT : 0 < T) :
    (∀ (returns : List ℚ) (v : ℚ), sampleVar returns = some v →
      (compute_sharpe returns rfr T =
          .error "Volatility is zero, Sharpe ratio cannot be calculated." ↔ v = 0))
    ∧ ∀ (c : ℚ) (n : ℕ), c ≠ 0 → 3 ≤ n →
      compute_sharpe (compute_daily_returns (List.replicate n c)) rfr T =
        .error "Volatility is zero, Sharpe ratio cannot be calculated." := by
  have hT' : (T : ℚ) ≠ 0 := Nat.cast_ne_zero.mpr (Nat.pos_iff_ne_zero.mp hT)
  constructor
  · intro returns v hv
    simp only [compute_sharpe, hv]
    by_cases h0 : v = 0
    · subst h0
      simp
    · have hb : (v * (T : ℚ) == 0) = false := by
        simp [mul_eq_zero, h0, hT']
      simp [hb, h0]
  · intro c n hc hn
    rw [compute_daily_returns_replicate c hc n]
    have hv : sampleVar (List.replicate (n - 1) 0) = some 0 :=
      sampleVar_replicate_zero (n - 1) (by omega)
    simp [compute_sharpe, hv]

/-- C3 witness: the 3-point constant series [5,5,5] (two zero returns, zero
sample variance) raises the degenerate-volatility error. -/
theorem compute_sharpe_spec_witness :
    compute_sharpe (compute_daily_returns (List.replicate 3 (5 : ℚ))) 0 252 =
      .error "Volatility is zero, Sharpe ratio cannot be calculated." :=
  (compute_sharpe_spec 0 252 (by norm_num)).2 5 3 (by norm_num) (by norm_num)

/-! ## C4 — the long-form reshape row-count invariant -/

theorem mkLongRow_fields (w : WideFrame) (p : ℚ × String) :
    (mkLongRow w p).fields = w.cell p.1 p.2 := rfl

theorem stackLevel0_eq_map (w : WideFrame) :
    stackLevel0 w = (cellPairs w).map (mkLongRow w) := by
  simp only [stackLevel0, cellPairs, List.map_flatMap, List.map_map]
  rfl

theorem mem_cellPairs (w : WideFrame) (p : ℚ × String) :
    p ∈ cellPairs w ↔ p.1 ∈ w.dates ∧ p.2 ∈ w.tickers := by
  simp only [cellPairs, List.mem_flatMap, List.mem_map]
  constructor
  · rintro ⟨d, hd, t, ht, rfl⟩
    exact ⟨hd, ht⟩
  · rintro ⟨h1, h2⟩
    exact ⟨p.1, h1, p.2, h2, rfl⟩

theorem nodup_cellPairs (w : WideFrame) (h1 : w.dates.Nodup) (h2 : w.tickers.Nodup) :
    (cellPairs w).Nodup := by
  rcases w with ⟨ds, ts, cell⟩
  simp only at h1 h2
  induction ds with
  | nil => simp [cellPairs]
  | cons d rest ih =>
    rcases List.nodup_cons.mp h1 with ⟨hd, hrest⟩
    have hrec : (cellPairs ⟨rest, ts, cell⟩).Nodup := ih hrest
    have hcons : cellPairs ⟨d :: rest, ts, cell⟩ =
        (ts.map (fun t => (d, t))) ++ cellPairs ⟨rest, ts, cell⟩ := by
      simp [cellPairs]
    rw [hcons, List.nodup_append]
    refine ⟨?_, hrec, ?_⟩
    · exact h2.map (fun a b hab => (Prod.mk.injEq d a d b).mp hab |>.2)
    · intro p hp hp2
      rcases List.mem_map.mp hp with ⟨t, _, rfl⟩
      have := (mem_cellPairs ⟨rest, ts, cell⟩ (d, t)).mp hp2
      exact hd this.1

/-- C4: the long-form reshape yields exactly one row per (date, instrument)
pair having at least one non-missing field among Open/High/Low/Close/Volume:
fully missing pairs are dropped, partially missing pairs are retained, every
retained row has some field present, no two rows share a (date, instrument)
key, and the row count equals the number of non-fully-missing cells of the
source wide frame. -/
theorem benchmarkReshape_spec (w : WideFrame) (h1 : w.dates.Nodup) (h2 : w.tickers.Nodup) :
    (benchmarkReshape w).length = countNonFullyMissing w
    ∧ (∀ r ∈ benchmarkReshape w, allMissing r.fields = false)
    ∧ ((benchmarkReshape w).Pairwise fun r1 r2 =>
        ¬(r1.date = r2.date ∧ r1.ticker = r2.ticker))
    ∧ ∀ d ∈ w.dates, ∀ t ∈ w.tickers, allMissing (w.cell d t) = false →
        mkLongRow w (d, t) ∈ benchmarkReshape w := by
  refine ⟨?_, ?_, ?_, ?_⟩
  · rw [benchmarkReshape, dropnaAllSubset, stackLevel0_eq_map, countNonFullyMissing]
    rw [← List.countP_eq_length_filter, List.countP_map]
    rfl
  · intro r hr
    rw [benchmarkReshape, dropnaAllSubset] at hr
    have := List.of_mem_filter hr
    simpa using this
  · rw [benchmarkReshape, dropnaAllSubset, stackLevel0_eq_map]
    refine List.Pairwise.sublist (List.filter_sublist _) ?_
    rw [List.pairwise_map]
    refine (nodup_cellPairs w h1 h2).imp ?_
    intro p q hpq hcon
    exact hpq (Prod.ext hcon.1 hcon.2)
  · intro d hd t ht hcell
    rw [benchmarkReshape, dropnaAllSubset, stackLevel0_eq_map]
    refine List.mem_filter.mpr ⟨?_, ?_⟩
    · exact List.mem_map_of_mem _ ((mem_cellPairs w (d, t)).mpr ⟨hd, ht⟩)
    · simp [mkLongRow_fields, hcell]

/-- C4 witness: on the 2×2 wide frame with exactly one fully missing cell, the
reshape keeps the three non-fully-missing cells, every kept row has a field
present, and no two rows share a key. -/
theorem benchmarkReshape_spec_witness :
    (benchmarkReshape wideScenario).length = countNonFullyMissing wideScenario
    ∧ ∀ r ∈ benchmarkReshape wideScenario, allMissing r.fields = false :=
  ⟨(benchmarkReshape_spec wideScenario (by decide) (by decide)).1,
   (benchmarkReshape_spec wideScenario (by decide) (by decide)).2.1⟩
